import Mathlib

/-!
Verification of the Solow growth model module (`modelproject.py`) of the
repository: a shallow embedding of its functions `capital`, `nullclines`
and `aevaluation` over the real numbers, followed by theorems settling
the claims of the specification about them.

Python floats are modelled as real numbers; `x ** y` on floats is
modelled by `Real.rpow` (written `x ^ y` for real `x`, `y`); numpy
arrays of length `T` are modelled by lists of length `T`.  Failure modes
(raised exceptions) are modelled by an `Option`-valued variant.
-/

namespace ModelProject

/-- Shallow embedding of the body of the simulation loop of `capital`:
given the previous pair `(k[t-1], h[t-1])`, produce `(k[t], h[t])` by
  `k[t] = (s_K*k[t-1]**alpha*h[t-1]**phi + (1-delta)*k[t-1]) / (1+n+g)`
  `h[t] = (s_H*k[t-1]**alpha*h[t-1]**phi + (1-delta)*h[t-1]) / (1+n+g)`
exactly as in the two assignments of the `for` loop. -/
noncomputable def step (s_K s_H n delta alpha phi g : ℝ) (kh : ℝ × ℝ) : ℝ × ℝ :=
  ((s_K * kh.1 ^ alpha * kh.2 ^ phi + (1 - delta) * kh.1) / (1 + n + g),
   (s_H * kh.1 ^ alpha * kh.2 ^ phi + (1 - delta) * kh.2) / (1 + n + g))

/-- The value `(k[t], h[t])` produced by the loop of `capital`: entry `0` is
`(k0, h0)` (the assignments `k[0] = k0`, `h[0] = h0`), and entry `t+1`
is obtained from entry `t` by one pass of the loop body. -/
noncomputable def capitalEntry (s_K s_H n delta alpha phi k0 h0 g : ℝ) : ℕ → ℝ × ℝ
  | 0 => (k0, h0)
  | t + 1 => step s_K s_H n delta alpha phi g
      (capitalEntry s_K s_H n delta alpha phi k0 h0 g t)

/-- Shallow embedding of `capital(s_K, s_H, n, delta, alpha, phi, k0, h0, T, g)`:
the pair of arrays `k`, `h` of length `T`, with `k[t]`, `h[t]` the two
components of the `t`-th loop entry. -/
noncomputable def capital (s_K s_H n delta alpha phi k0 h0 : ℝ) (T : ℕ) (g : ℝ) :
    List ℝ × List ℝ :=
  ((List.range T).map fun t => (capitalEntry s_K s_H n delta alpha phi k0 h0 g t).1,
   (List.range T).map fun t => (capitalEntry s_K s_H n delta alpha phi k0 h0 g t).2)

/-- Error-aware model of the loop body of `capital`: the two float
divisions raise `ZeroDivisionError` when the denominator `1+n+g` is
zero, and succeed with the value of `step` otherwise.  Real powers are
total in the model, matching the host library which produces `nan`
rather than raising on a negative base with a non-integer exponent. -/
noncomputable def stepE (s_K s_H n delta alpha phi g : ℝ) (kh : ℝ × ℝ) : Option (ℝ × ℝ) :=
  if 1 + n + g = 0 then none
  else some (step s_K s_H n delta alpha phi g kh)

/-- Error-aware model of the `t`-th loop entry: entry `0` is `(k0, h0)`
and each later entry is one error-aware pass of the loop body applied to
the previous entry. -/
noncomputable def capitalEntryE (s_K s_H n delta alpha phi k0 h0 g : ℝ) :
    ℕ → Option (ℝ × ℝ)
  | 0 => some (k0, h0)
  | t + 1 => (capitalEntryE s_K s_H n delta alpha phi k0 h0 g t).bind
      (stepE s_K s_H n delta alpha phi g)

/-- Collects the first `T` entries of a fallible entry function into a
list, failing as soon as one entry fails, as the `for` loop of `capital`
stops at the first raised exception. -/
noncomputable def collectE (f : ℕ → Option (ℝ × ℝ)) : ℕ → Option (List (ℝ × ℝ))
  | 0 => some []
  | t + 1 => (collectE f t).bind fun l => (f t).map fun kh => l ++ [kh]

/-- Error-aware model of `capital`: the assignment `k[0] = k0` into the
array `np.zeros(T)` raises `IndexError` when `T = 0`; otherwise the loop
runs, possibly raising on a division by zero, and on success the pair of
arrays is returned. -/
noncomputable def capitalE (s_K s_H n delta alpha phi k0 h0 : ℝ) (T : ℕ) (g : ℝ) :
    Option (List ℝ × List ℝ) :=
  if T = 0 then none
  else (collectE (capitalEntryE s_K s_H n delta alpha phi k0 h0 g) T).map
    fun l => (l.map Prod.fst, l.map Prod.snd)

/-- Transition-equation residual `Delta_k = trans_k.lhs - trans_k.rhs`
built inside `nullclines`:
`k - (s_K*k**alpha*h**phi + (1-delta)*k)/((1+n)*(1+g))`. -/
noncomputable def Delta_k (alpha delta phi s_K g n k h : ℝ) : ℝ :=
  k - (s_K * k ^ alpha * h ^ phi + (1 - delta) * k) / ((1 + n) * (1 + g))

/-- Transition-equation residual `Delta_h = trans_h.lhs - trans_h.rhs`
built inside `nullclines`:
`h - (s_H*k**alpha*h**phi + (1-delta)*h)/((1+n)*(1+g))`. -/
noncomputable def Delta_h (alpha delta phi s_H g n k h : ℝ) : ℝ :=
  h - (s_H * k ^ alpha * h ^ phi + (1 - delta) * h) / ((1 + n) * (1 + g))

/-- The root for `h` of `0 = Delta_k` returned by `sm.solve(zero_k, h)`
in `nullclines`, in closed form: isolating `h**phi` in
`k*(1+n)*(1+g) = s_K*k**alpha*h**phi + (1-delta)*k` gives
`h = (((1+n)*(1+g) - (1-delta)) * k^(1-alpha) / s_K)^(1/phi)`. -/
noncomputable def nullcline_k_sol (alpha delta phi s_K g n k : ℝ) : ℝ :=
  (((1 + n) * (1 + g) - (1 - delta)) * k ^ (1 - alpha) / s_K) ^ (1 / phi)

/-- The root for `h` of `0 = Delta_h` returned by `sm.solve(zero_h, h)`
in `nullclines`, in closed form: isolating `h**(1-phi)` in
`h*(1+n)*(1+g) = s_H*k**alpha*h**phi + (1-delta)*h` gives
`h = (s_H * k^alpha / ((1+n)*(1+g) - (1-delta)))^(1/(1-phi))`. -/
noncomputable def nullcline_h_sol (alpha delta phi s_H g n k : ℝ) : ℝ :=
  (s_H * k ^ alpha / ((1 + n) * (1 + g) - (1 - delta))) ^ (1 / (1 - phi))

/-- Steady-state value of physical capital: the expression `kss` of
`aevaluation`, lambdified over `(s_K, s_H, g, n, delta, phi, alpha)`. -/
noncomputable def kss_func (s_K s_H g n delta phi alpha : ℝ) : ℝ :=
  ((s_K ^ (1 - phi) * s_H ^ phi) / (n + g + delta + n * g)) ^ (1 / (1 - alpha - phi))

/-- Steady-state value of human capital: the expression `hss` of
`aevaluation`, lambdified over `(s_K, s_H, g, n, delta, phi, alpha)`. -/
noncomputable def hss_func (s_K s_H g n delta phi alpha : ℝ) : ℝ :=
  ((s_K ^ alpha * s_H ^ (1 - alpha)) / (n + g + delta + n * g)) ^ (1 / (1 - alpha - phi))

/-- Shallow embedding of `aevaluation(x)`: the body never mentions its
argument `x`; it always returns the pair of lambdified steady-state
functions `(kss_func, hss_func)`. -/
noncomputable def aevaluation {X : Type} (x : X) :
    (ℝ → ℝ → ℝ → ℝ → ℝ → ℝ → ℝ → ℝ) × (ℝ → ℝ → ℝ → ℝ → ℝ → ℝ → ℝ → ℝ) :=
  (kss_func, hss_func)

/-- The module-level state of `modelproject.py`: the nine sympy symbols
created by `sm.symbols` and the list `param` collecting them.  Symbols
carry no runtime state beyond their name, so each is modelled by its
name string. -/
structure ModuleState where
  k : String
  h : String
  alpha : String
  delta : String
  phi : String
  s_K : String
  s_H : String
  g : String
  n : String
  param : List String

/-- The module state created at import time by the `sm.symbols` calls
and the assignment `param = [k, h, alpha, delta, phi, s_K, s_H, g, n]`. -/
def initState : ModuleState :=
  ⟨"k", "h", "alpha", "delta", "phi", "s_K", "s_H", "g", "n",
   ["k", "h", "alpha", "delta", "phi", "s_K", "s_H", "g", "n"]⟩

/-- State-passing embedding of `nullclines(param)`: the body only reads
the module symbols (building `trans_k` and `trans_h` and solving them
for `h`); it contains no assignment to a module-level name, so the
module state is returned unchanged alongside the two solved roots. -/
noncomputable def nullclinesS (st : ModuleState) (p : List String) :=
  (st, (nullcline_k_sol, nullcline_h_sol))

/-- State-passing embedding of `aevaluation(x)`: the body only builds
local expressions from the module symbols and lambdifies them; it
contains no assignment to a module-level name. -/
noncomputable def aevaluationS {X : Type} (st : ModuleState) (x : X) :=
  (st, aevaluation x)

/-- State-passing embedding of `capital(...)`: the body only writes the
local arrays `k` and `h`, which shadow the module symbols of the same
name; it contains no assignment to a module-level name. -/
noncomputable def capitalS (st : ModuleState) (s_K s_H n delta alpha phi k0 h0 : ℝ)
    (T : ℕ) (g : ℝ) :=
  (st, capital s_K s_H n delta alpha phi k0 h0 T g)

lemma capital_fst_getD {s_K s_H n delta alpha phi k0 h0 : ℝ} {T : ℕ} {g : ℝ}
    {t : ℕ} (ht : t < T) :
    (capital s_K s_H n delta alpha phi k0 h0 T g).1.getD t 0 =
      (capitalEntry s_K s_H n delta alpha phi k0 h0 g t).1 := by
  simp [capital, List.getD_eq_getElem?_getD, List.getElem?_range, ht]

lemma capital_snd_getD {s_K s_H n delta alpha phi k0 h0 : ℝ} {T : ℕ} {g : ℝ}
    {t : ℕ} (ht : t < T) :
    (capital s_K s_H n delta alpha phi k0 h0 T g).2.getD t 0 =
      (capitalEntry s_K s_H n delta alpha phi k0 h0 g t).2 := by
  simp [capital, List.getD_eq_getElem?_getD, List.getElem?_range, ht]

/-- Claim C4: for every `T`, both arrays returned by `capital` have length
exactly `T`. -/
theorem capital_length (s_K s_H n delta alpha phi k0 h0 : ℝ) (T : ℕ) (g : ℝ) :
    (capital s_K s_H n delta alpha phi k0 h0 T g).1.length = T ∧
    (capital s_K s_H n delta alpha phi k0 h0 T g).2.length = T := by
  simp [capital]

/-- Claim C1: for every call of `capital` with `T ≥ 1` and every `t` in
`1..T-1`, the returned entries satisfy
`k[t] = (s_K*k[t-1]^alpha*h[t-1]^phi + (1-delta)*k[t-1])/(1+n+g)` and
`h[t] = (s_H*k[t-1]^alpha*h[t-1]^phi + (1-delta)*h[t-1])/(1+n+g)`. -/
theorem capital_recurrence (s_K s_H n delta alpha phi k0 h0 : ℝ) (T : ℕ) (g : ℝ)
    (t : ℕ) (ht1 : 1 ≤ t) (htT : t ≤ T - 1) :
    (capital s_K s_H n delta alpha phi k0 h0 T g).1.getD t 0 =
      (s_K * (capital s_K s_H n delta alpha phi k0 h0 T g).1.getD (t - 1) 0 ^ alpha *
          (capital s_K s_H n delta alpha phi k0 h0 T g).2.getD (t - 1) 0 ^ phi +
        (1 - delta) * (capital s_K s_H n delta alpha phi k0 h0 T g).1.getD (t - 1) 0) /
        (1 + n + g) ∧
    (capital s_K s_H n delta alpha phi k0 h0 T g).2.getD t 0 =
      (s_H * (capital s_K s_H n delta alpha phi k0 h0 T g).1.getD (t - 1) 0 ^ alpha *
          (capital s_K s_H n delta alpha phi k0 h0 T g).2.getD (t - 1) 0 ^ phi +
        (1 - delta) * (capital s_K s_H n delta alpha phi k0 h0 T g).2.getD (t - 1) 0) /
        (1 + n + g) := by
  have hT : t < T := by omega
  have hT' : t - 1 < T := by omega
  obtain ⟨s, rfl⟩ : ∃ s, t = s + 1 := ⟨t - 1, by omega⟩
  rw [capital_fst_getD hT, capital_snd_getD hT, capital_fst_getD hT', capital_snd_getD hT']
  simp [capitalEntry, step]

/-- Witness for C1 at concrete inputs. -/
theorem capital_recurrence_witness :
    1 ≤ 1 ∧ 1 ≤ 2 - 1 ∧
    ((capital 1 1 0 1 0 0 2 3 2 0).1.getD 1 0 =
        (1 * (capital 1 1 0 1 0 0 2 3 2 0).1.getD 0 0 ^ (0 : ℝ) *
            (capital 1 1 0 1 0 0 2 3 2 0).2.getD 0 0 ^ (0 : ℝ) +
          (1 - 1) * (capital 1 1 0 1 0 0 2 3 2 0).1.getD 0 0) / (1 + 0 + 0) ∧
      (capital 1 1 0 1 0 0 2 3 2 0).2.getD 1 0 =
        (1 * (capital 1 1 0 1 0 0 2 3 2 0).1.getD 0 0 ^ (0 : ℝ) *
            (capital 1 1 0 1 0 0 2 3 2 0).2.getD 0 0 ^ (0 : ℝ) +
          (1 - 1) * (capital 1 1 0 1 0 0 2 3 2 0).2.getD 0 0) / (1 + 0 + 0)) :=
  ⟨le_refl 1, by norm_num,
    capital_recurrence 1 1 0 1 0 0 2 3 2 0 1 (le_refl 1) (by norm_num)⟩

/-- Claim C3: for every `T ≥ 1` the arrays returned by `capital` have
`k[0] = k0` and `h[0] = h0`; for `T = 1` the result is `([k0], [h0])`. -/
theorem capital_initial (s_K s_H n delta alpha phi k0 h0 : ℝ) (T : ℕ) (g : ℝ)
    (hT : 1 ≤ T) :
    (capital s_K s_H n delta alpha phi k0 h0 T g).1.getD 0 0 = k0 ∧
    (capital s_K s_H n delta alpha phi k0 h0 T g).2.getD 0 0 = h0 ∧
    capital s_K s_H n delta alpha phi k0 h0 1 g = ([k0], [h0]) := by
  refine ⟨?_, ?_, ?_⟩
  · rw [capital_fst_getD (by omega)]
    simp [capitalEntry]
  · rw [capital_snd_getD (by omega)]
    simp [capitalEntry]
  · simp [capital, capitalEntry, List.range_succ]

/-- Witness for C3 at concrete inputs. -/
theorem capital_initial_witness :
    1 ≤ 1 ∧
    ((capital 1 1 0 0 0 0 2 3 1 0).1.getD 0 0 = 2 ∧
      (capital 1 1 0 0 0 0 2 3 1 0).2.getD 0 0 = 3 ∧
      capital 1 1 0 0 0 0 2 3 1 0 = ([2], [3])) :=
  ⟨le_refl 1, capital_initial 1 1 0 0 0 0 2 3 1 0 (le_refl 1)⟩

/-- Claim C5: `capital` is deterministic (two runs on identical arguments
return identical arrays) and Markov: entry `t` is the fixed function
`step` of the parameters and entry `t-1` alone. -/
theorem capital_deterministic_markov (s_K s_H n delta alpha phi k0 h0 : ℝ) (T : ℕ)
    (g : ℝ) (t : ℕ) (ht1 : 1 ≤ t) (htT : t < T) :
    capital s_K s_H n delta alpha phi k0 h0 T g =
      capital s_K s_H n delta alpha phi k0 h0 T g ∧
    ((capital s_K s_H n delta alpha phi k0 h0 T g).1.getD t 0,
      (capital s_K s_H n delta alpha phi k0 h0 T g).2.getD t 0) =
      step s_K s_H n delta alpha phi g
        ((capital s_K s_H n delta alpha phi k0 h0 T g).1.getD (t - 1) 0,
          (capital s_K s_H n delta alpha phi k0 h0 T g).2.getD (t - 1) 0) := by
  refine ⟨rfl, ?_⟩
  have ht' : t - 1 < T := by omega
  obtain ⟨s, rfl⟩ : ∃ s, t = s + 1 := ⟨t - 1, by omega⟩
  rw [capital_fst_getD htT, capital_snd_getD htT, capital_fst_getD ht', capital_snd_getD ht']
  simp [capitalEntry, step]

/-- Witness for C5 at concrete inputs. -/
theorem capital_deterministic_markov_witness :
    1 ≤ 1 ∧ 1 < 2 ∧
    (capital 1 1 0 1 0 0 2 3 2 0 = capital 1 1 0 1 0 0 2 3 2 0 ∧
      ((capital 1 1 0 1 0 0 2 3 2 0).1.getD 1 0,
        (capital 1 1 0 1 0 0 2 3 2 0).2.getD 1 0) =
        step 1 1 0 1 0 0 0
          ((capital 1 1 0 1 0 0 2 3 2 0).1.getD 0 0,
            (capital 1 1 0 1 0 0 2 3 2 0).2.getD 0 0)) :=
  ⟨le_refl 1, by omega,
    capital_deterministic_markov 1 1 0 1 0 0 2 3 2 0 1 (le_refl 1) (by omega)⟩

lemma capitalEntry_fst_eq_snd {s_K s_H n delta alpha phi k0 h0 g : ℝ}
    (hs : s_K = s_H) (hkh : k0 = h0) (t : ℕ) :
    (capitalEntry s_K s_H n delta alpha phi k0 h0 g t).1 =
      (capitalEntry s_K s_H n delta alpha phi k0 h0 g t).2 := by
  subst hs
  subst hkh
  induction t with
  | zero => simp [capitalEntry]
  | succ s ih => simp [capitalEntry, step, ih]

/-- Claim C10: with symmetric savings `s_K = s_H` and equal initial stocks
`k0 = h0`, the two arrays returned by `capital` agree entrywise. -/
theorem capital_symmetric (s_K s_H n delta alpha phi k0 h0 : ℝ) (T : ℕ) (g : ℝ)
    (hs : s_K = s_H) (hkh : k0 = h0) (t : ℕ) (ht : t < T) :
    (capital s_K s_H n delta alpha phi k0 h0 T g).1.getD t 0 =
      (capital s_K s_H n delta alpha phi k0 h0 T g).2.getD t 0 := by
  rw [capital_fst_getD ht, capital_snd_getD ht]
  exact capitalEntry_fst_eq_snd hs hkh t

/-- Witness for C10 at concrete inputs. -/
theorem capital_symmetric_witness :
    (1 : ℝ) = 1 ∧ (2 : ℝ) = 2 ∧ 0 < 1 ∧
    (capital 1 1 0 0 0 0 2 2 1 0).1.getD 0 0 =
      (capital 1 1 0 0 0 0 2 2 1 0).2.getD 0 0 :=
  ⟨rfl, rfl, Nat.one_pos, capital_symmetric 1 1 0 0 0 0 2 2 1 0 rfl rfl 0 Nat.one_pos⟩

/-- Claim C8: for `T = 0` the assignment `k[0] = k0` indexes an empty array
and `capital` raises rather than returning length-0 arrays, so `T ≥ 1` is a
precondition for `capital` returning at all. -/
theorem capital_T_zero_raises (s_K s_H n delta alpha phi k0 h0 g : ℝ) :
    capitalE s_K s_H n delta alpha phi k0 h0 0 g = none := by
  simp [capitalE]

lemma capitalEntryE_eq_some {s_K s_H n delta alpha phi k0 h0 g : ℝ}
    (hden : 1 + n + g ≠ 0) (t : ℕ) :
    capitalEntryE s_K s_H n delta alpha phi k0 h0 g t =
      some (capitalEntry s_K s_H n delta alpha phi k0 h0 g t) := by
  induction t with
  | zero => simp [capitalEntryE, capitalEntry]
  | succ s ih => simp [capitalEntryE, capitalEntry, ih, stepE, hden]

lemma collectE_eq_some {f : ℕ → Option (ℝ × ℝ)} {gf : ℕ → ℝ × ℝ}
    (h : ∀ t, f t = some (gf t)) (T : ℕ) :
    collectE f T = some ((List.range T).map gf) := by
  induction T with
  | zero => simp [collectE]
  | succ s ih => simp [collectE, ih, h, List.range_succ]

/-- Claim C6: `capital` performs no input validation or error handling of
its own: for every `T ≥ 1` with nonzero denominator `1+n+g` it returns
normally with the value of the pure model (real powers are total, so no
further condition is needed), and the only way it can fail once `T ≥ 1` is
the division by zero inherited from the host library when `1+n+g = 0`. -/
theorem capital_no_validation (s_K s_H n delta alpha phi k0 h0 : ℝ) (T : ℕ) (g : ℝ)
    (hT : 1 ≤ T) :
    (1 + n + g ≠ 0 →
      capitalE s_K s_H n delta alpha phi k0 h0 T g =
        some (capital s_K s_H n delta alpha phi k0 h0 T g)) ∧
    (capitalE s_K s_H n delta alpha phi k0 h0 T g = none → 1 + n + g = 0) := by
  have hT0 : ¬ T = 0 := by omega
  constructor
  · intro hden
    simp only [capitalE, if_neg hT0]
    rw [collectE_eq_some (capitalEntryE_eq_some hden)]
    simp [capital, List.map_map, Function.comp]
  · intro hnone
    by_contra hden
    rw [capitalE, if_neg hT0, collectE_eq_some (capitalEntryE_eq_some hden)] at hnone
    simp at hnone

/-- Witness for C6 at concrete inputs. -/
theorem capital_no_validation_witness :
    1 ≤ 1 ∧
    (((1 : ℝ) + 0 + 0 ≠ 0 →
      capitalE 1 1 0 0 0 0 1 1 1 0 = some (capital 1 1 0 0 0 0 1 1 1 0)) ∧
     (capitalE 1 1 0 0 0 0 1 1 1 0 = none → (1 : ℝ) + 0 + 0 = 0)) :=
  ⟨le_refl 1, capital_no_validation 1 1 0 0 0 0 1 1 1 0 (le_refl 1)⟩

/-- Claim C7: no call to `nullclines`, `aevaluation` or `capital` modifies
the module-level symbolic parameter definitions: each state-passing
embedding returns the module state unchanged, for every starting state and
every argument list. -/
theorem no_module_state_mutation {X : Type} (st : ModuleState) (p : List String)
    (x : X) (s_K s_H n delta alpha phi k0 h0 : ℝ) (T : ℕ) (g : ℝ) :
    (nullclinesS st p).1 = st ∧ (aevaluationS st x).1 = st ∧
    (capitalS st s_K s_H n delta alpha phi k0 h0 T g).1 = st :=
  ⟨rfl, rfl, rfl⟩

/-- Claim C9: `aevaluation` ignores its argument — any two calls return the
same pair of steady-state functions — and those functions compute the
closed-form `kss` and `hss` from the seven numeric parameters
`(s_K, s_H, g, n, delta, phi, alpha)`. -/
theorem aevaluation_ignores_argument {X Y : Type} (x : X) (y : Y)
    (s_K s_H g n delta phi alpha : ℝ) :
    aevaluation x = aevaluation y ∧
    (aevaluation x).1 s_K s_H g n delta phi alpha =
      ((s_K ^ (1 - phi) * s_H ^ phi) / (n + g + delta + n * g)) ^
        (1 / (1 - alpha - phi)) ∧
    (aevaluation x).2 s_K s_H g n delta phi alpha =
      ((s_K ^ alpha * s_H ^ (1 - alpha)) / (n + g + delta + n * g)) ^
        (1 / (1 - alpha - phi)) :=
  ⟨rfl, rfl, rfl⟩

lemma rpow_one_div_pow {A e : ℝ} (hA : 0 < A) (he : e ≠ 0) :
    (A ^ (1 / e)) ^ e = A := by
  rw [← Real.rpow_mul hA.le, one_div, inv_mul_cancel₀ he, Real.rpow_one]

/-- Claim C2: substituting the root for `h` returned by each `sm.solve`
call of `nullclines` back into the corresponding transition-equation
residual makes the residual vanish, for every parameter list in the
region where the real powers are well defined (positive stocks, positive
savings rates, positive gross growth, positive effective depreciation
margin, and exponents avoiding the degenerate `phi = 0` and `phi = 1`). -/
theorem nullclines_residual_vanish (alpha delta phi s_K s_H g n k : ℝ)
    (hk : 0 < k) (hsK : 0 < s_K) (hsH : 0 < s_H)
    (hD : 0 < (1 + n) * (1 + g))
    (hC : 0 < (1 + n) * (1 + g) - (1 - delta))
    (hphi : phi ≠ 0) (hphi1 : phi ≠ 1) :
    Delta_k alpha delta phi s_K g n k (nullcline_k_sol alpha delta phi s_K g n k) = 0 ∧
    Delta_h alpha delta phi s_H g n k (nullcline_h_sol alpha delta phi s_H g n k) = 0 := by
  have hDne : ((1 + n) * (1 + g) : ℝ) ≠ 0 := ne_of_gt hD
  have hCne : ((1 + n) * (1 + g) - (1 - delta) : ℝ) ≠ 0 := ne_of_gt hC
  have hkpow1 : (0 : ℝ) < k ^ (1 - alpha) := Real.rpow_pos_of_pos hk _
  have hkpow2 : (0 : ℝ) < k ^ alpha := Real.rpow_pos_of_pos hk _
  have h2 : k ^ alpha * k ^ (1 - alpha) = k := by
    rw [← Real.rpow_add hk, show alpha + (1 - alpha) = (1 : ℝ) by ring, Real.rpow_one]
  constructor
  · have hA : (0 : ℝ) < ((1 + n) * (1 + g) - (1 - delta)) * k ^ (1 - alpha) / s_K :=
      div_pos (mul_pos hC hkpow1) hsK
    have h1 : (nullcline_k_sol alpha delta phi s_K g n k) ^ phi
        = ((1 + n) * (1 + g) - (1 - delta)) * k ^ (1 - alpha) / s_K := by
      rw [nullcline_k_sol]
      exact rpow_one_div_pow hA hphi
    have h3 : s_K * k ^ alpha *
        (((1 + n) * (1 + g) - (1 - delta)) * k ^ (1 - alpha) / s_K)
        = ((1 + n) * (1 + g) - (1 - delta)) * k := by
      calc s_K * k ^ alpha *
          (((1 + n) * (1 + g) - (1 - delta)) * k ^ (1 - alpha) / s_K)
          = ((1 + n) * (1 + g) - (1 - delta)) * (k ^ alpha * k ^ (1 - alpha)) *
            (s_K / s_K) := by ring
        _ = ((1 + n) * (1 + g) - (1 - delta)) * k := by
            rw [div_self (ne_of_gt hsK), h2, mul_one]
    rw [Delta_k, h1, h3]
    field_simp
    ring
  · have hphi1' : (1 : ℝ) - phi ≠ 0 := sub_ne_zero.mpr fun hcon => hphi1 hcon.symm
    have hX : (0 : ℝ) < s_H * k ^ alpha / ((1 + n) * (1 + g) - (1 - delta)) :=
      div_pos (mul_pos hsH hkpow2) hC
    have hs1 : (nullcline_h_sol alpha delta phi s_H g n k) ^ phi
        = (s_H * k ^ alpha / ((1 + n) * (1 + g) - (1 - delta))) ^ (phi / (1 - phi)) := by
      rw [nullcline_h_sol, ← Real.rpow_mul hX.le,
        show 1 / (1 - phi) * phi = phi / (1 - phi) by ring]
    have hs2 : (s_H * k ^ alpha / ((1 + n) * (1 + g) - (1 - delta))) *
        (s_H * k ^ alpha / ((1 + n) * (1 + g) - (1 - delta))) ^ (phi / (1 - phi))
        = nullcline_h_sol alpha delta phi s_H g n k := by
      rw [nullcline_h_sol]
      calc (s_H * k ^ alpha / ((1 + n) * (1 + g) - (1 - delta))) *
          (s_H * k ^ alpha / ((1 + n) * (1 + g) - (1 - delta))) ^ (phi / (1 - phi))
          = (s_H * k ^ alpha / ((1 + n) * (1 + g) - (1 - delta))) ^ (1 : ℝ) *
            (s_H * k ^ alpha / ((1 + n) * (1 + g) - (1 - delta))) ^ (phi / (1 - phi)) := by
              rw [Real.rpow_one]
        _ = (s_H * k ^ alpha / ((1 + n) * (1 + g) - (1 - delta))) ^
              ((1 : ℝ) + phi / (1 - phi)) := (Real.rpow_add hX 1 _).symm
        _ = (s_H * k ^ alpha / ((1 + n) * (1 + g) - (1 - delta))) ^ (1 / (1 - phi)) := by
              rw [show (1 : ℝ) + phi / (1 - phi) = 1 / (1 - phi) by
                field_simp]
    have h4 : s_H * k ^ alpha * (nullcline_h_sol alpha delta phi s_H g n k) ^ phi +
        (1 - delta) * nullcline_h_sol alpha delta phi s_H g n k
        = ((1 + n) * (1 + g)) * nullcline_h_sol alpha delta phi s_H g n k := by
      rw [hs1]
      have h5 : s_H * k ^ alpha *
          (s_H * k ^ alpha / ((1 + n) * (1 + g) - (1 - delta))) ^ (phi / (1 - phi))
          = ((1 + n) * (1 + g) - (1 - delta)) *
            ((s_H * k ^ alpha / ((1 + n) * (1 + g) - (1 - delta))) *
              (s_H * k ^ alpha / ((1 + n) * (1 + g) - (1 - delta))) ^ (phi / (1 - phi))) := by
        rw [show ((1 + n) * (1 + g) - (1 - delta)) *
            ((s_H * k ^ alpha / ((1 + n) * (1 + g) - (1 - delta))) *
              (s_H * k ^ alpha / ((1 + n) * (1 + g) - (1 - delta))) ^ (phi / (1 - phi)))
            = (((1 + n) * (1 + g) - (1 - delta)) *
                (s_H * k ^ alpha / ((1 + n) * (1 + g) - (1 - delta)))) *
              (s_H * k ^ alpha / ((1 + n) * (1 + g) - (1 - delta))) ^ (phi / (1 - phi))
            by ring, mul_div_cancel₀ _ hCne]
      rw [h5, hs2]
      ring
    rw [Delta_h, h4]
    field_simp

/-- Witness for C2 at concrete inputs. -/
theorem nullclines_residual_vanish_witness :
    (0 : ℝ) < 1 ∧ (0 : ℝ) < 1 ∧ (0 : ℝ) < 1 ∧
    (0 : ℝ) < (1 + 0) * (1 + 0) ∧ (0 : ℝ) < (1 + 0) * (1 + 0) - (1 - 1) ∧
    ((1 : ℝ) / 2) ≠ 0 ∧ ((1 : ℝ) / 2) ≠ 1 ∧
    (Delta_k (1 / 2) 1 (1 / 2) 1 0 0 1 (nullcline_k_sol (1 / 2) 1 (1 / 2) 1 0 0 1) = 0 ∧
      Delta_h (1 / 2) 1 (1 / 2) 1 0 0 1 (nullcline_h_sol (1 / 2) 1 (1 / 2) 1 0 0 1) = 0) :=
  ⟨by norm_num, by norm_num, by norm_num, by norm_num, by norm_num, by norm_num, by norm_num,
    nullclines_residual_vanish (1 / 2) 1 (1 / 2) 1 1 0 0 1 (by norm_num) (by norm_num)
      (by norm_num) (by norm_num) (by norm_num) (by norm_num) (by norm_num)⟩

end ModelProject
